import Mathlib

/-!
# The airdrop contract's flat-array Merkle engine, checked against its spec

Shallow embedding of the Merkle tree builder and path-traversal engine of the
airdrop contract (`src/lib.rs`, duplicated in `merkle_tree/src/main.rs`):
`create_hash_tree`, `get_hash_proof`, `check_hash_value` and `check_proof`.

Transcription conventions, source line by source line:

* `sha256::digest : String -> String` is abstracted as an explicit function
  parameter `digest`; every definition is parametric in it, and concrete
  evaluations instantiate it with the injective stand-in `dH s = "H" ++ s`
  (a digest is one fixed function of the input string; nothing below depends
  on any other property of SHA-256).
* Rust `Vec<String>` becomes `List String`; `u8` fields store the result of
  the source's conversions: `initial_length as u8` is `% 256` (silent
  truncation), `try_into().unwrap()` is an explicit panic constructor when
  the value exceeds 255.
* Every `loop`/`while` becomes structural recursion on an explicit fuel
  argument, one unit of fuel per source-loop iteration; running out of fuel
  is the distinguished result `fuelOut` (the source loop not having
  terminated within that many iterations).
* Every slice index that the source performs without a bounds check is an
  `l[i]?` lookup whose `none` case is a distinguished panic result, matching
  the Rust index-out-of-bounds panic.
-/

namespace Airdrop

/-- The `MerkleTree` struct of `src/lib.rs` (fields in source order): `length`
is the `u8` padded leaf count, `hash_tree` the flat node array (leaves first,
root last), `hashroot` the root hash, `steps` the `u8` per-transition spans. -/
structure MerkleTree where
  length : Nat
  hash_tree : List String
  hashroot : String
  steps : List Nat
  deriving DecidableEq

/-- The contract state, restricted to the Merkle engine: of `State`'s fields
only `merkle_tree : Option<MerkleTree>` is read or written by the four
functions under study; the token-bookkeeping fields are omitted. -/
structure State where
  merkle_tree : Option MerkleTree
  deriving DecidableEq

/-- The `ClaimNFTParams` struct: the caller-submitted proof, the claimant
account (32 raw bytes, modelled as a list of byte values), and the selected
token id (unused by `check_proof`'s comparison). -/
structure ClaimNFTParams where
  proof : List String
  node : List Nat
  selected_token : Nat
  deriving DecidableEq

/-- One uppercase hexadecimal digit, as produced by Rust's `{:02X}` format:
`0`–`9` then `A`–`F`. -/
def hexDigitChar (n : Nat) : Char :=
  if n < 10 then Char.ofNat (48 + n) else Char.ofNat (55 + n)

/-- Rust `format!("{:02X}", byte)` for one byte value (< 256): exactly two
uppercase hex digits. -/
def byteToHex (b : Nat) : String :=
  String.mk [hexDigitChar (b / 16), hexDigitChar (b % 16)]

/-- The identity encoding used both at `init` time and in `check_proof`:
`node.0.iter().map(|byte| format!("{:02X}", byte)).collect::<Vec<String>>().concat()`. -/
def accountHex (bytes : List Nat) : String :=
  String.join (bytes.map byteToHex)

/-- The pairing `for index in (startpoint..working_vec.len()).step_by(2)`
body of `create_hash_tree`, over the slice starting at `startpoint`: hash
each adjacent pair `digest(wv[i].clone() + &wv[i+1])`. A lone trailing
element would make the source read `wv[i+1]` out of bounds (`none` here);
the in-loop padding keeps the slice even so this is unreachable. -/
def hashPairs (digest : String → String) : List String → Option (List String)
  | [] => some []
  | [_] => none
  | a :: b :: rest => (hashPairs digest rest).map (fun tl => digest (a ++ b) :: tl)

/-- Result of `create_hash_tree`: a built tree, the `try_into().unwrap()`
panic on a steps entry exceeding 255 (`stepOverflow`), the out-of-bounds
read of an unpaired element (`pairOob`, unreachable), or loop fuel
exhaustion (`fuelOut`). -/
inductive BuildResult where
  | ok (t : MerkleTree)
  | stepOverflow
  | pairOob
  | fuelOut
  deriving DecidableEq

/-- The `loop { ... }` of `create_hash_tree`, one fuel unit per iteration.
State: `wv0` is `working_vec`, `sp` is `startpoint`, `steps` the
accumulated steps, `initLen` the saved `initial_length`. Body order as in
the source: odd-total re-padding, pairing, `startpoint = len` then append,
the step push (with its `u8` conversion panic), then the
`vec_to_add.len() == 1` return. -/
def buildLoop (digest : String → String) :
    Nat → List String → Nat → List Nat → Nat → BuildResult
  | 0, _, _, _, _ => .fuelOut
  | fuel + 1, wv0, sp, steps, initLen =>
    let wv1 := if wv0.length % 2 = 1 then wv0 ++ [wv0.getLastD ""] else wv0
    match hashPairs digest (wv1.drop sp) with
    | none => .pairOob
    | some vecToAdd =>
      let sp' := wv1.length
      let wv2 := wv1 ++ vecToAdd
      let stepVal := if vecToAdd.length / 2 = 1 then vecToAdd.length + 1
        else vecToAdd.length
      if 255 < stepVal then .stepOverflow
      else
        let steps' := steps ++ [stepVal]
        if vecToAdd.length = 1 then
          .ok { length := initLen % 256, hash_tree := wv2,
                hashroot := wv2.getLastD "", steps := steps' }
        else buildLoop digest fuel wv2 sp' steps' initLen

/-- `create_hash_tree(nodes)`: hash every input into `working_vec`, pad an
odd leaf count by duplicating the last leaf, record `initial_length`, and
run the level-folding loop. The `length` field of the result is
`initial_length as u8`. -/
def create_hash_tree (digest : String → String) (fuel : Nat)
    (nodes : List String) : BuildResult :=
  let wv0 := nodes.map digest
  let wv := if wv0.length % 2 = 1 then wv0 ++ [wv0.getLastD ""] else wv0
  buildLoop digest fuel wv 0 [] wv.length

/-- The state written back by `State::create_hash_tree` on a completed run:
`self.merkle_tree = Some(tree)`. Panicking or diverging runs never return. -/
def mtOf : BuildResult → Option MerkleTree
  | .ok t => some t
  | _ => none

/-- Result of `get_hash_proof`: the collected proof (`Some(proof)`), the
scan-exhausted / no-tree `None`, a `nodes[..]` index panic, a
`steps[step_number]` index panic, or loop fuel exhaustion. -/
inductive ProofResult where
  | found (proof : List String)
  | notFound
  | nodeOob
  | stepOob
  | fuelOut
  deriving DecidableEq

/-- The `while startpoint + index < end_point` loop of `get_hash_proof`,
one fuel unit per iteration. Body order as in the source: the root
equality check, the `nodes[startpoint + index]` match, the parity-directed
sibling hash (`index` odd pairs with the previous slot, even with the
next), then the window advance consuming `steps[step_number]`. -/
def proofLoop (digest : String → String) (nodes : List String)
    (hashroot : String) (steps : List Nat) :
    Nat → Nat → Nat → Nat → Nat → String → List String → ProofResult
  | 0, _, _, _, _, _, _ => .fuelOut
  | fuel + 1, sp, ep, stepNum, idx, hunted, proof =>
    if sp + idx < ep then
      if hunted = hashroot then .found (proof ++ [hunted])
      else
        match nodes[sp + idx]? with
        | none => .nodeOob
        | some cur =>
          if cur = hunted then
            match
              (if idx % 2 = 1 then
                (nodes[sp + idx - 1]?).map (fun prev => digest (prev ++ cur))
              else
                (nodes[sp + idx + 1]?).map (fun next => digest (cur ++ next))) with
            | none => .nodeOob
            | some newHunted =>
              match steps[stepNum]? with
              | none => .stepOob
              | some st =>
                proofLoop digest nodes hashroot steps fuel ep (ep + st)
                  (stepNum + 1) 0 newHunted (proof ++ [hunted])
          else proofLoop digest nodes hashroot steps fuel sp ep stepNum
            (idx + 1) hunted proof
    else .notFound

/-- `State::get_hash_proof(test)`: `None` when no tree exists
(`self.merkle_tree.as_ref()?`), else the window scan starting at
`end_point = length`, `startpoint = 0`, hunting `test`. -/
def get_hash_proof (digest : String → String) (fuel : Nat) (s : State)
    (test : String) : ProofResult :=
  match s.merkle_tree with
  | none => .notFound
  | some t => proofLoop digest t.hash_tree t.hashroot t.steps fuel
      0 t.length 0 0 test []

/-- Result of `check_hash_value`: found (`true`), not found / no tree
(`false` — `notFound` here), or the same panics and fuel exhaustion as the
proof scan. -/
inductive CheckHashResult where
  | found
  | notFound
  | nodeOob
  | stepOob
  | fuelOut
  deriving DecidableEq

/-- The `while` loop of `check_hash_value`: the identical traversal to
`proofLoop` with no proof accumulator, returning `true` at the root
equality check and `false` on scan exhaustion. -/
def checkLoop (digest : String → String) (nodes : List String)
    (hashroot : String) (steps : List Nat) :
    Nat → Nat → Nat → Nat → Nat → String → CheckHashResult
  | 0, _, _, _, _, _ => .fuelOut
  | fuel + 1, sp, ep, stepNum, idx, hunted =>
    if sp + idx < ep then
      if hunted = hashroot then .found
      else
        match nodes[sp + idx]? with
        | none => .nodeOob
        | some cur =>
          if cur = hunted then
            match
              (if idx % 2 = 1 then
                (nodes[sp + idx - 1]?).map (fun prev => digest (prev ++ cur))
              else
                (nodes[sp + idx + 1]?).map (fun next => digest (cur ++ next))) with
            | none => .nodeOob
            | some newHunted =>
              match steps[stepNum]? with
              | none => .stepOob
              | some st =>
                checkLoop digest nodes hashroot steps fuel ep (ep + st)
                  (stepNum + 1) 0 newHunted
          else checkLoop digest nodes hashroot steps fuel sp ep stepNum
            (idx + 1) hunted
    else .notFound

/-- `State::check_hash_value(test_address)`: `false` when no tree exists,
else the boolean window scan. -/
def check_hash_value (digest : String → String) (fuel : Nat) (s : State)
    (test : String) : CheckHashResult :=
  match s.merkle_tree with
  | none => .notFound
  | some t => checkLoop digest t.hash_tree t.hashroot t.steps fuel
      0 t.length 0 0 test

/-- Result of `check_proof`: the comparison verdict, or the panic from
`get_hash_proof(claimer).unwrap()` on `None` (and any panic propagated out
of the scan itself), or fuel exhaustion. -/
inductive CheckResult where
  | ok (b : Bool)
  | panicked
  | fuelOut
  deriving DecidableEq

/-- `State::check_proof(test)`: hex-encode and digest the claimant
(`claimer`), recompute the canonical proof, and compare it to the
submitted one; the source's `.unwrap()` turns a `None` from
`get_hash_proof` into a panic. -/
def check_proof (digest : String → String) (fuel : Nat) (s : State)
    (test : ClaimNFTParams) : CheckResult :=
  let claimer := digest (accountHex test.node)
  match get_hash_proof digest fuel s claimer with
  | .found masterProof => .ok (masterProof = test.proof)
  | .notFound => .panicked
  | .nodeOob => .panicked
  | .stepOob => .panicked
  | .fuelOut => .fuelOut

end Airdrop

namespace Airdrop

/-! ## Projections and concrete instances used by the theorems below -/

/-- The `steps` field of a completed build, `none` for any other outcome. -/
def stepsOf : BuildResult → Option (List Nat)
  | .ok t => some t.steps
  | _ => none

/-- The `length` field of a completed build, `none` for any other outcome. -/
def lengthFieldOf : BuildResult → Option Nat
  | .ok t => some t.length
  | _ => none

/-- Whether `v` occurs in the padded leaf level (the first `length` entries of
`hash_tree`) of the state's committed tree. -/
def leafInPadded (s : State) (v : String) : Bool :=
  match s.merkle_tree with
  | some t => (t.hash_tree.take t.length).contains v
  | none => false

/-- The mapping between the two traversal result types: `check_hash_value` is
`get_hash_proof` with the collected path discarded. -/
def toCheck : ProofResult → CheckHashResult
  | .found _ => .found
  | .notFound => .notFound
  | .nodeOob => .nodeOob
  | .stepOob => .stepOob
  | .fuelOut => .fuelOut

/-- A concrete stand-in for `sha256::digest` at evaluation points: prefix the
input with one marker character. Like the real digest it is one fixed,
injective function of the input string; evaluation results below depend on
nothing else. -/
def dH : String → String := fun s => "H" ++ s

/-- A 32-byte account of zeros (`AccountAddress([0u8; 32])` of the tests). -/
def acc0 : List Nat := List.replicate 32 0

/-- A 32-byte account of ones (`AccountAddress([1u8; 32])` of the tests). -/
def acc1 : List Nat := List.replicate 32 1

/-- The state after `init` whitelists exactly `acc1`: its hex encoding is
hashed into the two (duplicated) leaves of a three-node tree. -/
def st1 : State := ⟨mtOf (create_hash_tree dH 10 [accountHex acc1])⟩

/-- Ten distinct single-character identities: the smallest shape whose first
internal level has odd size `5 ≥ 5`, which desynchronises the traversal
window from the level layout. -/
def ids10 : List String := ["0", "1", "2", "3", "4", "5", "6", "7", "8", "9"]

/-- The state committed to `ids10`. -/
def st10 : State := ⟨mtOf (create_hash_tree dH 30 ids10)⟩

/-- The state committed to the single identity `"a"`. -/
def stA : State := ⟨mtOf (create_hash_tree dH 10 ["a"])⟩

/-- Forty-one identities: four copies of `"a"`, thirty-six distinct fillers,
and one identity `"HaHa"` equal to the concatenation of two `"a"`-leaf
hashes — so its leaf hash coincides with an internal node. The 42-leaf tree
has two odd levels of size ≥ 5 (21 and 11), leaving the top scan window two
slots short of the root, and the engineered coincidence steers the scan of
the leaf hash of `"a"` into that window. -/
def idsPanic : List String :=
  ["a", "a", "a", "a"] ++ (List.range 36).map (fun k => "F" ++ toString k) ++ ["HaHa"]

/-- The state committed to `idsPanic`. -/
def stPanic : State := ⟨mtOf (create_hash_tree dH 20 idsPanic)⟩

end Airdrop

namespace Airdrop

/-! ## Claim theorems -/

/-- C1: the claim says that for an identity whose leaf hash is not in the
committed tree, `check_proof` returns `false` rather than failing. It does
not: `get_hash_proof` duly reports not-found for the absent account `acc0`,
but `check_proof` calls `.unwrap()` on that `None` and panics. -/
theorem C1_check_proof_panics_on_absent :
    get_hash_proof dH 10 st1 (dH (accountHex acc0)) = .notFound
    ∧ check_proof dH 10 st1 ⟨["x"], acc0, 0⟩ = .panicked := by decide

set_option maxRecDepth 10000 in
/-- C3 counterexample: an input producing a steps entry exceeding 255 (511
leaves pad to 512, so the first level transition records 256) does not
truncate: the `try_into().unwrap()` panics (`stepOverflow`), so no tree is
ever produced for such an input. -/
theorem C3_steps_entry_panics_cex :
    create_hash_tree dH 20 (List.replicate 511 "x") = .stepOverflow := by decide

set_option maxRecDepth 10000 in
/-- C3 amended: only the `length` field is silently truncated — 256 leaves
build a tree whose one-byte `length` field is `256 % 256 = 0` — while a
steps entry exceeding 255 (first reachable with 511 leaves) panics on the
failed `u8` conversion instead of being truncated. -/
theorem C3_length_truncates_steps_panic :
    lengthFieldOf (create_hash_tree dH 20 (List.replicate 256 "x")) = some 0
    ∧ create_hash_tree dH 20 (List.replicate 511 "x") = .stepOverflow := by
  exact ⟨by decide, by decide⟩

/-- C4: one level transition records `len(nextLevel)`, except `len + 1` when
`len / 2 = 1` — and integer-dividing by two equals one exactly for lengths 2
and 3. Building from three leaf hashes (for any digest function and any
three strings) records `steps = [3, 1]`: the first transition produces a
level of 2 (recorded as 3), the second the root level of 1 (recorded as 1). -/
theorem C4_step_recording :
    (∀ (digest : String → String) (h1 h2 h3 : String),
      stepsOf (create_hash_tree digest 10 [h1, h2, h3]) = some [3, 1])
    ∧ (∀ n : Nat, n / 2 = 1 ↔ n = 2 ∨ n = 3) := by
  refine ⟨fun digest h1 h2 h3 => ?_, fun n => by omega⟩
  simp [create_hash_tree, buildLoop, hashPairs, stepsOf]

/-- C5: completeness fails. For the ten-identity tree `st10` the leaf hash of
identity `"0"` is in the padded leaf level, yet `get_hash_proof` reports
not-found: the first internal level has odd size 5, its duplicated last node
occupies one flat-array slot that the recorded step span does not account
for, so from the second internal level on the scan window sits one slot
left of the level and the matched node's window parity is wrong — the
recomputed parent hashes a non-sibling pair and the scan exhausts. -/
theorem C5_completeness_fails :
    leafInPadded st10 (dH "0") = true
    ∧ get_hash_proof dH 100 st10 (dH "0") = .notFound := by decide

/-- C8 counterexample: for the single-identity tree, the leaf's own hash is
not "found equal to the root on the very first scan": the root is
`digest(leaf + leaf)`, a different value from the leaf, and the returned
proof has two entries — the leaf was matched by node equality and one level
advance was required before the hunted value equalled the root. -/
theorem C8_single_identity_cex :
    get_hash_proof dH 10 stA (dH "a") = .found [dH "a", dH (dH "a" ++ dH "a")]
    ∧ dH "a" ≠ dH (dH "a" ++ dH "a") := by decide

/-- C8 amended: for a single identity the leaf is duplicated with itself
(`hash_tree = [leaf, leaf, root]` with `root = digest(leaf + leaf)`); the
query for the leaf hash matches the leaf on the very first scan, and after
exactly one level advance the hunted value equals the root, giving the
canonical proof `[leaf, root]` and a `true` membership verdict. -/
theorem C8_single_identity_amended :
    (mtOf (create_hash_tree dH 10 ["a"])).map MerkleTree.hash_tree
      = some [dH "a", dH "a", dH (dH "a" ++ dH "a")]
    ∧ (mtOf (create_hash_tree dH 10 ["a"])).map MerkleTree.hashroot
      = some (dH (dH "a" ++ dH "a"))
    ∧ check_hash_value dH 10 stA (dH "a") = .found
    ∧ get_hash_proof dH 10 stA (dH "a") = .found [dH "a", dH (dH "a" ++ dH "a")] := by
  decide

/-- C10 counterexample: the traversal is not bounds-safe. For the 41-identity
list `idsPanic` (padded leaf count 42, well within one byte) the query for
the leaf hash of `"a"` — a committed leaf — drives the scan through six
level advances into the final window, matches a non-root node there, and the
seventh advance reads `steps[6]` past the end of the six-entry steps list:
an out-of-bounds index panic. -/
theorem C10_steps_out_of_bounds_cex :
    leafInPadded stPanic (dH "a") = true
    ∧ get_hash_proof dH 100 stPanic (dH "a") = .stepOob := by decide

/-- C10 amended: the traversal's in-bounds guarantee does not hold for every
identity list: both `check_hash_value` and `get_hash_proof` read `steps` out
of bounds on `stPanic` (whose padded leaf count, 42, fits the one-byte
length field), because reaching the final window does not force the hunted
value to equal the root; other queries on the same tree, such as the leaf
hash of filler identity `"F5"`, complete normally with not-found. -/
theorem C10_traversal_not_total :
    check_hash_value dH 100 stPanic (dH "a") = .stepOob
    ∧ get_hash_proof dH 100 stPanic (dH "F5") = .notFound
    ∧ (mtOf (create_hash_tree dH 20 idsPanic)).map MerkleTree.length = some 42 := by
  decide

end Airdrop

namespace Airdrop

/-! ## Helper lemmas -/

/-- On an empty working vector the build loop makes no progress: each
iteration pairs nothing, records a `0` step, and loops again, for any amount
of fuel. -/
theorem buildLoop_empty (digest : String → String) :
    ∀ (fuel : Nat) (steps : List Nat), buildLoop digest fuel [] 0 steps 0 = .fuelOut := by
  intro fuel
  induction fuel with
  | zero => intro _; rfl
  | succ n ih =>
    intro steps
    simpa [buildLoop, hashPairs] using ih (steps ++ [0])

/-- The membership scan is the proof scan with the accumulator dropped:
lockstep agreement of the two loops on every state, fuel included. -/
theorem checkLoop_eq (digest : String → String) (nodes : List String)
    (hashroot : String) (steps : List Nat) :
    ∀ (fuel sp ep stepNum idx : Nat) (hunted : String) (proof : List String),
      checkLoop digest nodes hashroot steps fuel sp ep stepNum idx hunted =
        toCheck (proofLoop digest nodes hashroot steps fuel sp ep stepNum idx hunted proof) := by
  intro fuel
  induction fuel with
  | zero => intro _ _ _ _ _ _; rfl
  | succ n ih =>
    intro sp ep stepNum idx hunted proof
    simp only [checkLoop, proofLoop]
    by_cases h1 : sp + idx < ep
    · simp only [h1, if_true]
      by_cases h2 : hunted = hashroot
      · simp [h2, toCheck]
      · simp only [h2, if_false]
        cases hg : nodes[sp + idx]? with
        | none => rfl
        | some cur =>
          by_cases h3 : cur = hunted
          · simp only [h3, if_true]
            cases hsib :
                (if idx % 2 = 1 then
                  (nodes[sp + idx - 1]?).map (fun prev => digest (prev ++ hunted))
                else
                  (nodes[sp + idx + 1]?).map (fun next => digest (hunted ++ next))) with
            | none => rfl
            | some newHunted =>
              cases hst : steps[stepNum]? with
              | none => rfl
              | some st => exact ih ep (ep + st) (stepNum + 1) 0 newHunted (proof ++ [hunted])
          · simp only [h3, if_false]
            exact ih sp ep stepNum (idx + 1) hunted proof
    · simp [h1, toCheck]

/-- A build that completes within some fuel completes identically with any
larger fuel. -/
theorem buildLoop_mono (digest : String → String) :
    ∀ (f1 f2 : Nat) (wv : List String) (sp : Nat) (steps : List Nat) (initLen : Nat)
      (t : MerkleTree), f1 ≤ f2 →
      buildLoop digest f1 wv sp steps initLen = .ok t →
      buildLoop digest f2 wv sp steps initLen = .ok t := by
  intro f1
  induction f1 with
  | zero =>
    intro f2 wv sp steps initLen t _ hok
    exact absurd hok (by simp [buildLoop])
  | succ n ih =>
    intro f2 wv sp steps initLen t hle hok
    obtain ⟨m, rfl⟩ : ∃ m, f2 = m + 1 := ⟨f2 - 1, by omega⟩
    simp only [buildLoop] at hok ⊢
    cases hp : hashPairs digest
        ((if wv.length % 2 = 1 then wv ++ [wv.getLastD ""] else wv).drop sp) with
    | none =>
      simp only [hp] at hok
      exact absurd hok (by simp)
    | some vecToAdd =>
      simp only [hp] at hok ⊢
      by_cases hov : 255 < (if vecToAdd.length / 2 = 1 then vecToAdd.length + 1
          else vecToAdd.length)
      · rw [if_pos hov] at hok; exact absurd hok (by simp)
      · rw [if_neg hov] at hok ⊢
        by_cases h1 : vecToAdd.length = 1
        · rw [if_pos h1] at hok ⊢; exact hok
        · rw [if_neg h1] at hok ⊢
          exact ih m _ _ _ _ t (by omega) hok

/-! ## Remaining claim theorems -/

/-- C2: `create_hash_tree` does not terminate on an empty input. With no
leaves the pairing loop produces an empty next level every iteration, the
`vec_to_add.len() == 1` exit is never reached, and no fuel bound suffices —
the "no tree" state exists only because the caller (`init`) skips
construction for an empty whitelist. -/
theorem C2_create_hash_tree_diverges_on_empty :
    ∀ (digest : String → String) (fuel : Nat),
      create_hash_tree digest fuel [] = .fuelOut := by
  intro digest fuel
  simpa [create_hash_tree] using buildLoop_empty digest fuel []

/-- C6: the verifier demands strict equality with the recomputed canonical
proof. Whenever the canonical proof `mp` for an account exists, any
submitted proof with one element replaced by a different hash, or truncated
to a strictly shorter prefix, or extended by extra entries, makes
`check_proof` return `false`. -/
theorem C6_verifier_strict_equality (digest : String → String) (fuel : Nat)
    (s : State) (a : List Nat) (tok : Nat) (mp : List String)
    (hmp : get_hash_proof digest fuel s (digest (accountHex a)) = .found mp) :
    (∀ (i : Nat) (hi : i < mp.length) (x : String), x ≠ mp.get ⟨i, hi⟩ →
      check_proof digest fuel s ⟨mp.set i x, a, tok⟩ = .ok false)
    ∧ (∀ k : Nat, k < mp.length →
      check_proof digest fuel s ⟨mp.take k, a, tok⟩ = .ok false)
    ∧ (∀ ext : List String, ext ≠ [] →
      check_proof digest fuel s ⟨mp ++ ext, a, tok⟩ = .ok false) := by
  have base : ∀ l : List String, mp ≠ l →
      check_proof digest fuel s ⟨l, a, tok⟩ = .ok false := by
    intro l hne
    simp only [check_proof, hmp]
    simp [hne]
  refine ⟨?_, ?_, ?_⟩
  · intro i hi x hx
    apply base
    intro heq
    have hgot := congrArg (fun l : List String => l[i]?) heq
    simp only [List.getElem?_set_eq_of_lt x hi, List.getElem?_eq_getElem hi] at hgot
    exact hx ((Option.some.injEq _ _).mp hgot).symm
  · intro k hk
    apply base
    intro heq
    have hlen := congrArg List.length heq
    rw [List.length_take] at hlen
    omega
  · intro ext hext
    apply base
    intro heq
    have hlen := congrArg List.length heq
    rw [List.length_append] at hlen
    have : ext.length ≠ 0 := fun h => hext (List.eq_nil_of_length_eq_zero h)
    omega

/-- The canonical proof for the whitelisted account `acc1` in `st1`. -/
def mpW : List String :=
  [dH (accountHex acc1), dH (dH (accountHex acc1) ++ dH (accountHex acc1))]

/-- C6 witness: for the committed account `acc1` of `st1`, whose canonical
proof is `mpW`, the truncated (empty) submission is rejected. -/
theorem C6_verifier_strict_equality_witness :
    check_proof dH 10 st1 ⟨mpW.take 0, acc1, 0⟩ = .ok false :=
  (C6_verifier_strict_equality dH 10 st1 acc1 0 mpW (by decide)).2.1 0 (by decide)

/-- C7: `check_hash_value` is `get_hash_proof` with the collected path
discarded — the full correspondence of outcomes (found, not-found including
the no-tree state, either index panic, fuel exhaustion), and in particular
the boolean check succeeds exactly when the proof generator returns a
proof. -/
theorem C7_membership_iff_proof (digest : String → String) (fuel : Nat)
    (s : State) (test : String) :
    check_hash_value digest fuel s test = toCheck (get_hash_proof digest fuel s test)
    ∧ (check_hash_value digest fuel s test = .found
        ↔ ∃ p, get_hash_proof digest fuel s test = .found p) := by
  have h : check_hash_value digest fuel s test
      = toCheck (get_hash_proof digest fuel s test) := by
    unfold check_hash_value get_hash_proof
    cases s.merkle_tree with
    | none => rfl
    | some t => exact checkLoop_eq digest t.hash_tree t.hashroot t.steps fuel 0 t.length 0 0 test []
  refine ⟨h, ?_⟩
  rw [h]
  cases hg : get_hash_proof digest fuel s test <;> simp [toCheck]

/-- C9: tree construction is deterministic. Any two completed builds from
the same identity list (under the same digest function, with any fuel
bounds) yield byte-identical nodes, root, and steps. -/
theorem C9_deterministic_build (digest : String → String) (f1 f2 : Nat)
    (ns : List String) (t1 t2 : MerkleTree)
    (h1 : create_hash_tree digest f1 ns = .ok t1)
    (h2 : create_hash_tree digest f2 ns = .ok t2) :
    t1.hash_tree = t2.hash_tree ∧ t1.hashroot = t2.hashroot ∧ t1.steps = t2.steps := by
  unfold create_hash_tree at h1 h2
  have key : t1 = t2 := by
    rcases Nat.le_total f1 f2 with hle | hle
    · have h := buildLoop_mono digest f1 f2 _ 0 [] _ t1 hle h1
      rw [h] at h2
      injection h2
    · have h := buildLoop_mono digest f2 f1 _ 0 [] _ t2 hle h2
      rw [h] at h1
      injection h1 with h3
      exact h3.symm
  rw [key]
  exact ⟨rfl, rfl, rfl⟩

/-- C9 witness: two builds from the single-identity list `["a"]` (with fuel
bounds 5 and 9) produce the same nodes, root, and steps. -/
theorem C9_deterministic_build_witness :
    (MerkleTree.mk 2 ["Ha", "Ha", "HHaHa"] "HHaHa" [1]).hash_tree
      = (MerkleTree.mk 2 ["Ha", "Ha", "HHaHa"] "HHaHa" [1]).hash_tree
    ∧ (MerkleTree.mk 2 ["Ha", "Ha", "HHaHa"] "HHaHa" [1]).hashroot
      = (MerkleTree.mk 2 ["Ha", "Ha", "HHaHa"] "HHaHa" [1]).hashroot
    ∧ (MerkleTree.mk 2 ["Ha", "Ha", "HHaHa"] "HHaHa" [1]).steps
      = (MerkleTree.mk 2 ["Ha", "Ha", "HHaHa"] "HHaHa" [1]).steps :=
  C9_deterministic_build dH 5 9 ["a"]
    (MerkleTree.mk 2 ["Ha", "Ha", "HHaHa"] "HHaHa" [1])
    (MerkleTree.mk 2 ["Ha", "Ha", "HHaHa"] "HHaHa" [1])
    (by decide) (by decide)

end Airdrop
